import Mathlib

/-!
Verification of `src/christmas_year_count.py`: a linear pipeline that scrapes
a Wikipedia article, extracts list entries with years, classifies them by
heading context, filters animation/special entries, counts entries per year
and writes report artifacts.  The definitions below are a shallow embedding
of that script: Python strings become `List Char`, the regular-expression
searches (`YEAR_RE`, `DATE_PARENS_RE`, `ANIM_HEADING_RE`, the specials
keyword pattern) become explicit executable scans with Python's word-boundary
semantics, the BeautifulSoup traversal becomes a walk over an abstract node
sequence, and the side-effecting `main` becomes an event trace.
-/

namespace Rewindos

/-- Python regex word character (`\w`, ASCII part): letter, digit or underscore. -/
def isWordChar (c : Char) : Bool := c.isAlphanum || c == '_'

/-- Numeric value of a decimal digit character. -/
def toDigit (c : Char) : Nat := c.toNat - 48

/-- A `\b` word boundary holds after a word character when the remaining
input is empty or starts with a non-word character. -/
def boundaryAfter : List Char → Bool
  | [] => true
  | c :: _ => !(isWordChar c)

/-- Match of `(19\d{2}|20\d{2})\b` at the head of the input (the leading `\b`
is checked by the caller): four digits starting `19` or `20`, followed by a
word boundary.  Returns the numeric year on success, as `int(...)` does. -/
def yearHere : List Char → Option Nat
  | d1 :: d2 :: d3 :: d4 :: rest =>
    if (((d1 == '1') && (d2 == '9')) || ((d1 == '2') && (d2 == '0')))
        && d3.isDigit && d4.isDigit && boundaryAfter rest then
      some (1000 * toDigit d1 + 100 * toDigit d2 + 10 * toDigit d3 + toDigit d4)
    else none
  | _ => none

/-- Left-to-right scan implementing `YEAR_RE.search`: `prevWord` records
whether the character before the current position is a word character (so a
`\b` holds at the current position iff `prevWord` is false, the token itself
starting with a digit). -/
def yearSearchAux : Bool → List Char → Option Nat
  | _, [] => none
  | prevWord, c :: cs =>
    if prevWord then yearSearchAux (isWordChar c) cs
    else
      match yearHere (c :: cs) with
      | some y => some y
      | none => yearSearchAux (isWordChar c) cs

/-- `YEAR_RE.search(text)`: first occurrence of `\b(19\d{2}|20\d{2})\b`,
returned as a number. -/
def yearSearch (cs : List Char) : Option Nat := yearSearchAux false cs

/-- Split the input at the first `)`: returns the characters before it and
the characters after it, or `none` when the input holds no `)`. -/
def splitAtCloseParen : List Char → Option (List Char × List Char)
  | [] => none
  | c :: cs =>
    if c == ')' then some ([], cs)
    else
      match splitAtCloseParen cs with
      | some (content, rest) => some (c :: content, rest)
      | none => none

/-- `DATE_PARENS_RE.search(text).group(1)`: the pattern
`\(([^)]*\b(19\d{2}|20\d{2})\b[^)]*)\)` matches at an opening parenthesis
whose run of non-`)` characters (up to the first `)`, which must exist)
contains a year token; the leftmost such match wins and group 1 is that run.
The boundary context at the edges of the run agrees with searching the run
standalone, since it is delimited by `(` and `)`, both non-word characters. -/
def dateParensSearch : List Char → Option (List Char)
  | [] => none
  | c :: cs =>
    if c == '(' then
      match splitAtCloseParen cs with
      | some (content, _) =>
        if (yearSearch content).isSome then some content else dateParensSearch cs
      | none => dateParensSearch cs
    else dateParensSearch cs

/-- `extract_year(text)`: prefer the first year inside the first qualifying
parenthetical; otherwise the first year anywhere in the text; else `None`. -/
def extract_year (text : List Char) : Option Nat :=
  match dateParensSearch text with
  | some content =>
    match yearSearch content with
    | some y => some y
    | none => yearSearch text
  | none => yearSearch text

/-- Case-insensitive match of a (lowercase) literal against the head of the
input; returns the remaining input on success. -/
def matchLowerLit : List Char → List Char → Option (List Char)
  | [], cs => some cs
  | _ :: _, [] => none
  | l :: ls, c :: cs => if c.toLower == l then matchLowerLit ls cs else none

/-- Match of `(animation|animated)\b` (case-insensitive) at the head of the
input; the leading `\b` is checked by the caller. -/
def animHere (cs : List Char) : Bool :=
  (match matchLowerLit ("animation".toList) cs with
   | some rest => boundaryAfter rest
   | none => false) ||
  (match matchLowerLit ("animated".toList) cs with
   | some rest => boundaryAfter rest
   | none => false)

/-- Scan implementing `ANIM_HEADING_RE.search`, with the same word-boundary
bookkeeping as `yearSearchAux`. -/
def animSearchAux : Bool → List Char → Bool
  | _, [] => false
  | prevWord, c :: cs =>
    (!prevWord && animHere (c :: cs)) || animSearchAux (isWordChar c) cs

/-- `bool(ANIM_HEADING_RE.search(heading))`: does the heading text contain
the whole word `animation` or `animated`, case-insensitively? -/
def animHeadingMatch (cs : List Char) : Bool := animSearchAux false cs

/-- One node of the document-order traversal
`wrapper.find_all(["h2", "h3", "h4", "li"], recursive=True)`: either a
heading (`h2`/`h3`/`h4`, all treated alike by the script) or a list item,
each carrying its flattened `get_text(" ", strip=True)` text. -/
inductive Node
  | heading (text : List Char)
  | li (text : List Char)
deriving DecidableEq

/-- One captured row: `{"year": ..., "in_animation_section": ..., "entry": ...}`. -/
structure Entry where
  year : Nat
  in_animation_section : Bool
  entry : List Char
deriving DecidableEq

/-- The extraction loop of `main`: headings reassign the running
`in_animation` flag (true exactly when the heading matches
`ANIM_HEADING_RE`); a list item whose text yields a year appends a row with
the current flag; items without a year are skipped. -/
def extractRows : Bool → List Node → List Entry
  | _, [] => []
  | _, Node.heading t :: rest => extractRows (animHeadingMatch t) rest
  | flag, Node.li t :: rest =>
    match extract_year t with
    | some y => { year := y, in_animation_section := flag, entry := t } :: extractRows flag rest
    | none => extractRows flag rest

/-- The whole extraction pass: the flag starts false (`in_animation = False`). -/
def extract (nodes : List Node) : List Entry := extractRows false nodes

/-- The running flag after processing a node sequence, starting from `b`. -/
def flagAfter : Bool → List Node → Bool
  | b, [] => b
  | _, Node.heading t :: rest => flagAfter (animHeadingMatch t) rest
  | b, Node.li _ :: rest => flagAfter b rest

/-- The text of the last heading of a node sequence, when one exists. -/
def lastHeading : List Node → Option (List Char)
  | [] => none
  | Node.heading t :: rest =>
    match lastHeading rest with
    | some u => some u
    | none => some t
  | Node.li _ :: rest => lastHeading rest

/-- The animation-match result of the most recently visited heading of the
sequence, or `false` when it has no heading. -/
def mostRecentHeadingMatch (pre : List Node) : Bool :=
  match lastHeading pre with
  | some t => animHeadingMatch t
  | none => false

/-- Case-insensitive match of a needle against the head of the haystack. -/
def headMatchCI : List Char → List Char → Bool
  | [], _ => true
  | _ :: _, [] => false
  | n :: ns, c :: cs => (c.toLower == n.toLower) && headMatchCI ns cs

/-- Case-insensitive substring containment, as the compiled alternation of
`re.escape`d keywords with `re.I` behaves on each literal keyword. -/
def containsCI (needle : List Char) : List Char → Bool
  | [] => headMatchCI needle []
  | c :: cs => headMatchCI needle (c :: cs) || containsCI needle cs

/-- The `specials_keywords` list of the script. -/
def specialsKeywords : List (List Char) :=
  [ "christmas special", "holiday special", "special presentation",
    "tv special", "television special" ].map (fun s => s.toList)

/-- `bool(pat.search(entry))`: the entry text contains one of the keywords,
case-insensitively, as a substring. -/
def matchesSpecial (t : List Char) : Bool :=
  specialsKeywords.any (fun k => containsCI k t)

/-- The two filtering steps of `main`: keep rows with
`in_animation_section == False`, then drop rows whose text matches the
specials keyword pattern. -/
def filterEntries (l : List Entry) : List Entry :=
  (l.filter (fun e => e.in_animation_section == false)).filter
    (fun e => !(matchesSpecial e.entry))

/-- Number of entries of `l` with year `y` (one group size of
`df_filt.groupby("year").size()`). -/
def countYear (l : List Entry) (y : Nat) : Nat :=
  (l.filter (fun e => e.year == y)).length

/-- `df_filt.groupby("year").size()`: one pair per distinct year, keys in
ascending order (pandas sorts group keys), each mapped to its group size. -/
def groupPairs (l : List Entry) : List (Nat × Nat) :=
  (List.insertionSort (fun a b : Nat => a ≤ b) (l.map Entry.year).dedup).map
    (fun y => (y, countYear l y))

/-- Row order of `sort_values(ascending=False)`: count descending.  The
order among equal counts is left unspecified by the script (pandas uses an
unstable quicksort); the model realizes one admissible order. -/
def countDescOrder (a b : Nat × Nat) : Prop := b.2 ≤ a.2

instance : DecidableRel countDescOrder :=
  fun a b => inferInstanceAs (Decidable (b.2 ≤ a.2))

instance : IsTotal (Nat × Nat) countDescOrder :=
  ⟨fun a b => Nat.le_total b.2 a.2⟩

instance : IsTrans (Nat × Nat) countDescOrder :=
  ⟨fun _ _ _ h1 h2 => Nat.le_trans h2 h1⟩

/-- `counts = df_filt.groupby("year").size().sort_values(ascending=False)`. -/
def yearCounts (l : List Entry) : List (Nat × Nat) :=
  List.insertionSort countDescOrder (groupPairs l)

/-- The fixed parameters of the single `requests.get` call of the script. -/
structure HttpRequest where
  url : String
  userAgent : String
  timeoutSeconds : Nat
deriving DecidableEq

/-- The request `main` sends. -/
def theRequest : HttpRequest :=
  { url := "https://en.wikipedia.org/wiki/List_of_United_States_Christmas_television_episodes"
  , userAgent := "RewindOS-Christmas/1.0 (personal project)"
  , timeoutSeconds := 30 }

/-- Documented semantics of `requests.Response.raise_for_status`, called by
`main` on the response: it raises `HTTPError` exactly for client-error (4xx)
and server-error (5xx) status codes; 1xx/2xx/3xx responses do not raise. -/
def raiseForStatus (status : Nat) : Bool :=
  decide (400 ≤ status) && decide (status < 600)

/-- Observable events of one run of `main`, in order. -/
inductive Ev
  | proofFile
  | netRequest
  | httpError
  | structError
  | noDataWarn
  | indexError
  | csvAll
  | csvFiltered
  | csvCounts
  | chartPng
deriving DecidableEq

/-- Events of `main` after the proof file and the GET request: an HTTP error
aborts; a missing content wrapper raises `RuntimeError`; zero captured rows
logs a warning and returns; an empty count table makes `counts.index[0]`
raise `IndexError` before any CSV or chart is written; otherwise the three
CSV files and the chart are written in order. -/
def mainTail (status : Nat) (wrapperFound : Bool) (nodes : List Node) : List Ev :=
  if raiseForStatus status then [Ev.httpError]
  else if !wrapperFound then [Ev.structError]
  else
    let rows := extract nodes
    if rows.isEmpty then [Ev.noDataWarn]
    else
      let counts := yearCounts (filterEntries rows)
      if counts.isEmpty then [Ev.indexError]
      else [Ev.csvAll, Ev.csvFiltered, Ev.csvCounts, Ev.chartPng]

/-- The full event trace of `main`: it writes the proof marker file, then
performs the GET request, then continues as `mainTail`. -/
def mainEvents (status : Nat) (wrapperFound : Bool) (nodes : List Node) : List Ev :=
  Ev.proofFile :: Ev.netRequest :: mainTail status wrapperFound nodes

/-- Sample text of the spec's phase-1 precedence scenario. -/
def sampleText : List Char :=
  "Episode X (aired December 17, 2006) was the first of the season, premiered 1998".toList

/-- The parenthetical content `DATE_PARENS_RE` captures in `sampleText`. -/
def sampleParen : List Char := "aired December 17, 2006".toList

/-- Sample heading of the spec's animation scenario. -/
def sampleHeading : List Char := "Animated specials".toList

/-- Sample list-item text of the spec's animation scenario. -/
def sampleItem : List Char := "A Christmas Carol (1971)".toList

/-- Sample entry table realizing the spec's tie scenario
`counts = \x7b2006: 5, 2010: 5, 1999: 3\x7d`. -/
def sampleEntries : List Entry :=
  List.replicate 5 { year := 2006, in_animation_section := false, entry := [] } ++
    List.replicate 5 { year := 2010, in_animation_section := false, entry := [] } ++
      List.replicate 3 { year := 1999, in_animation_section := false, entry := [] }

end Rewindos

namespace Rewindos

theorem yearSearchAux_cons (p : Bool) (c : Char) (cs : List Char) :
    yearSearchAux p (c :: cs) =
      if p then yearSearchAux (isWordChar c) cs
      else
        match yearHere (c :: cs) with
        | some y => some y
        | none => yearSearchAux (isWordChar c) cs := rfl

theorem boundaryAfter_append_close (r tail : List Char) :
    boundaryAfter (r ++ ')' :: tail) = boundaryAfter r := by
  cases r with
  | nil => rfl
  | cons x r' => rfl

theorem yearHere_append_close (xs tail : List Char) (y : Nat)
    (h : yearHere xs = some y) : yearHere (xs ++ ')' :: tail) = some y := by
  match xs with
  | [] => simp [yearHere] at h
  | [_] => simp [yearHere] at h
  | [_, _] => simp [yearHere] at h
  | [_, _, _] => simp [yearHere] at h
  | d1 :: d2 :: d3 :: d4 :: r =>
    have hb := boundaryAfter_append_close r tail
    simp only [List.cons_append] at h ⊢
    simp only [yearHere, hb] at h ⊢
    exact h

theorem yearSearchAux_append_close :
    ∀ (content : List Char) (p : Bool) (tail : List Char),
      yearSearchAux p (content ++ ')' :: tail) = none → yearSearchAux p content = none := by
  intro content
  induction content with
  | nil => intro p tail _; rfl
  | cons c cs ih =>
    intro p tail h
    rw [List.cons_append, yearSearchAux_cons] at h
    rw [yearSearchAux_cons]
    cases p with
    | true =>
      rw [if_pos rfl] at h ⊢
      exact ih _ tail h
    | false =>
      rw [if_neg (by simp)] at h ⊢
      cases hy : yearHere (c :: cs) with
      | some y =>
        have hy2 := yearHere_append_close (c :: cs) tail y hy
        rw [List.cons_append] at hy2
        rw [hy2] at h
        exact absurd h (by simp)
      | none =>
        cases hy2 : yearHere (c :: (cs ++ ')' :: tail)) with
        | some y => rw [hy2] at h; exact absurd h (by simp)
        | none => rw [hy2] at h; exact ih _ tail h

theorem splitAtCloseParen_eq :
    ∀ (cs content rest : List Char), splitAtCloseParen cs = some (content, rest) →
      cs = content ++ ')' :: rest := by
  intro cs
  induction cs with
  | nil => intro content rest h; simp [splitAtCloseParen] at h
  | cons c cs' ih =>
    intro content rest h
    simp only [splitAtCloseParen] at h
    by_cases hc : c == ')'
    · rw [if_pos hc] at h
      simp only [Option.some.injEq, Prod.mk.injEq] at h
      obtain ⟨h1, h2⟩ := h
      have hc' : c = ')' := by simpa using hc
      subst h1; subst h2; subst hc'
      rfl
    · rw [if_neg hc] at h
      cases hsp : splitAtCloseParen cs' with
      | some pr =>
        obtain ⟨ct, r⟩ := pr
        rw [hsp] at h
        simp only [Option.some.injEq, Prod.mk.injEq] at h
        obtain ⟨h1, h2⟩ := h
        subst h1; subst h2
        rw [List.cons_append, ih ct r hsp]
      | none => rw [hsp] at h; exact absurd h (by simp)

theorem yearSearchAux_none_tail (p : Bool) (c : Char) (cs : List Char)
    (h : yearSearchAux p (c :: cs) = none) :
    yearSearchAux (isWordChar c) cs = none := by
  rw [yearSearchAux_cons] at h
  cases p with
  | true => rwa [if_pos rfl] at h
  | false =>
    rw [if_neg (by simp)] at h
    cases hy : yearHere (c :: cs) with
    | some y => rw [hy] at h; exact absurd h (by simp)
    | none => rwa [hy] at h

theorem dateParensSearch_eq_none :
    ∀ (text : List Char) (p : Bool), yearSearchAux p text = none →
      dateParensSearch text = none := by
  intro text
  induction text with
  | nil => intro p _; rfl
  | cons c cs ih =>
    intro p h
    have htail := yearSearchAux_none_tail p c cs h
    by_cases hc : c == '('
    · cases hsp : splitAtCloseParen cs with
      | some pr =>
        obtain ⟨content, rest⟩ := pr
        have hcs := splitAtCloseParen_eq cs content rest hsp
        have hcw : isWordChar c = false := by
          have hc' : c = '(' := by simpa using hc
          subst hc'; rfl
        rw [hcw] at htail
        have htail' := htail
        rw [hcs] at htail'
        have hcontent := yearSearchAux_append_close content false rest htail'
        have hns : (yearSearch content).isSome = false := by
          simp [yearSearch, hcontent]
        simp only [dateParensSearch, hc, if_true, hsp, hns, Bool.false_eq_true, if_false]
        exact ih _ htail
      | none =>
        simp only [dateParensSearch, hc, if_true, hsp]
        exact ih _ htail
    · simp only [dateParensSearch, if_neg hc]
      exact ih _ htail

end Rewindos

namespace Rewindos

theorem extractRows_append (xs : List Node) :
    ∀ (b : Bool) (ys : List Node),
      extractRows b (xs ++ ys) = extractRows b xs ++ extractRows (flagAfter b xs) ys := by
  induction xs with
  | nil => intro b ys; rfl
  | cons n xs' ih =>
    intro b ys
    cases n with
    | heading t =>
      rw [List.cons_append]
      simp only [extractRows, flagAfter]
      exact ih _ ys
    | li t =>
      rw [List.cons_append]
      simp only [extractRows, flagAfter]
      cases hy : extract_year t with
      | some y => simp only [ih b ys, List.cons_append]
      | none => exact ih b ys

theorem flagAfter_eq_lastHeading (xs : List Node) :
    ∀ (b : Bool),
      flagAfter b xs = match lastHeading xs with
        | some t => animHeadingMatch t
        | none => b := by
  induction xs with
  | nil => intro b; rfl
  | cons n xs' ih =>
    intro b
    cases n with
    | heading t =>
      simp only [flagAfter, lastHeading]
      rw [ih]
      cases lastHeading xs' <;> rfl
    | li t =>
      simp only [flagAfter, lastHeading]
      exact ih b

theorem flagAfter_false_eq (pre : List Node) :
    flagAfter false pre = mostRecentHeadingMatch pre := by
  rw [flagAfter_eq_lastHeading]
  unfold mostRecentHeadingMatch
  cases lastHeading pre <;> rfl

/-- C1: whenever the text contains a qualifying parenthetical — the first
parenthesized substring (captured by `DATE_PARENS_RE` as `content`) holding
a 4-digit year token of shape 19xx/20xx — `extract_year` returns the first
year token inside that parenthetical, regardless of any year tokens outside
it (phase-1 precedence over the phase-2 whole-text search). -/
theorem claim_C1 (text content : List Char) (y : Nat)
    (hp : dateParensSearch text = some content)
    (hy : yearSearch content = some y) :
    extract_year text = some y := by
  unfold extract_year
  rw [hp]
  simp only [hy]

theorem claim_C1_witness : extract_year sampleText = some 2006 :=
  claim_C1 sampleText sampleParen 2006 (by decide) (by decide)

/-- C2: the `in_animation_section` value recorded for a list item equals the
animation-pattern match of the most recently visited heading preceding it in
document order (`false` when no heading precedes it); every heading,
matching or not, reassigns the flag, so only the last preceding heading
matters. -/
theorem claim_C2 (pre post : List Node) (t : List Char) (y : Nat)
    (h : extract_year t = some y) :
    extract (pre ++ Node.li t :: post) =
      extract pre ++
        { year := y, in_animation_section := mostRecentHeadingMatch pre, entry := t } ::
          extractRows (mostRecentHeadingMatch pre) post := by
  unfold extract
  rw [extractRows_append, flagAfter_false_eq]
  simp only [extractRows, h]

theorem claim_C2_witness :
    extract ([Node.heading sampleHeading] ++ Node.li sampleItem :: []) =
      extract [Node.heading sampleHeading] ++
        { year := 1971, in_animation_section := mostRecentHeadingMatch [Node.heading sampleHeading],
          entry := sampleItem } ::
          extractRows (mostRecentHeadingMatch [Node.heading sampleHeading]) [] :=
  claim_C2 [Node.heading sampleHeading] [] sampleItem 1971 (by decide)

/-- C7: for text containing no 4-digit year token of shape 19xx/20xx
anywhere (the whole-text year search fails), `extract_year` returns `none`,
and a list item with such text is discarded: it contributes no row to the
extraction output. -/
theorem claim_C7 (text : List Char) (h : yearSearch text = none) :
    extract_year text = none ∧
      ∀ (b : Bool) (rest : List Node),
        extractRows b (Node.li text :: rest) = extractRows b rest := by
  have hdp : dateParensSearch text = none := dateParensSearch_eq_none text false h
  have hey : extract_year text = none := by
    unfold extract_year
    rw [hdp]
    exact h
  refine ⟨hey, ?_⟩
  intro b rest
  simp only [extractRows, hey]

theorem claim_C7_witness : extract_year ("December special".toList) = none :=
  (claim_C7 ("December special".toList) (by decide)).1

end Rewindos

namespace Rewindos

/-- C3: the two-stage filter keeps exactly those entries whose
`in_animation_section` is `false` and whose text contains none of the five
specials keywords case-insensitively as a substring; every entry flagged as
animation, or matching a keyword, is dropped.  Order and multiplicity of
the surviving entries are preserved (the two stages equal one combined
filter pass). -/
theorem claim_C3 (l : List Entry) (e : Entry) :
    (e ∈ filterEntries l ↔
      e ∈ l ∧ e.in_animation_section = false ∧ matchesSpecial e.entry = false) ∧
    filterEntries l =
      l.filter (fun x => !x.in_animation_section && !(matchesSpecial x.entry)) := by
  constructor
  · simp only [filterEntries, List.mem_filter, beq_iff_eq, Bool.not_eq_true',
      and_assoc]
  · unfold filterEntries
    rw [List.filter_filter]
    apply List.filter_congr
    intro x _
    cases hx : x.in_animation_section <;> cases hs : matchesSpecial x.entry <;>
      simp [hx, hs]

/-- C8: filtering never adds or duplicates rows — the number of entries
surviving the filter is at most the number of extracted entries (each of
which carries a year). -/
theorem claim_C8 (nodes : List Node) :
    (filterEntries (extract nodes)).length ≤ (extract nodes).length :=
  Nat.le_trans (List.length_filter_le _ _) (List.length_filter_le _ _)

/-- C5: when the fetch and parse succeed but extraction captures zero rows,
the run logs the no-data warning and terminates without error, having
performed only the proof-file write and the GET request — no CSV file and
no chart is written. -/
theorem claim_C5 (status : Nat) (nodes : List Node)
    (hs : raiseForStatus status = false) (hrows : extract nodes = []) :
    mainEvents status true nodes = [Ev.proofFile, Ev.netRequest, Ev.noDataWarn] := by
  unfold mainEvents mainTail
  rw [hs]
  simp [hrows]

theorem claim_C5_witness :
    mainEvents 200 true [] = [Ev.proofFile, Ev.netRequest, Ev.noDataWarn] :=
  claim_C5 200 [] (by decide) rfl

/-- C6: when extraction captures at least one row but filtering removes
every row, the count table is empty and `counts.index[0]` raises an uncaught
`IndexError`: the run aborts before any of the three CSV files or the chart
is written. -/
theorem claim_C6 (status : Nat) (nodes : List Node)
    (hs : raiseForStatus status = false)
    (hrows : extract nodes ≠ [])
    (hfilt : filterEntries (extract nodes) = []) :
    mainEvents status true nodes = [Ev.proofFile, Ev.netRequest, Ev.indexError] := by
  have hcounts : yearCounts (filterEntries (extract nodes)) = [] := by
    rw [hfilt]; rfl
  unfold mainEvents mainTail
  rw [hs]
  simp [hrows, hcounts]

theorem claim_C6_witness :
    mainEvents 200 true [Node.heading sampleHeading, Node.li sampleItem] =
      [Ev.proofFile, Ev.netRequest, Ev.indexError] :=
  claim_C6 200 [Node.heading sampleHeading, Node.li sampleItem]
    (by decide) (by decide) (by decide)

theorem mainTail_cases (status : Nat) (w : Bool) (nodes : List Node) :
    mainTail status w nodes = [Ev.httpError] ∨
    mainTail status w nodes = [Ev.structError] ∨
    mainTail status w nodes = [Ev.noDataWarn] ∨
    mainTail status w nodes = [Ev.indexError] ∨
    mainTail status w nodes = [Ev.csvAll, Ev.csvFiltered, Ev.csvCounts, Ev.chartPng] := by
  unfold mainTail
  split
  · exact Or.inl rfl
  · split
    · exact Or.inr (Or.inl rfl)
    · dsimp only
      split
      · exact Or.inr (Or.inr (Or.inl rfl))
      · split
        · exact Or.inr (Or.inr (Or.inr (Or.inl rfl)))
        · exact Or.inr (Or.inr (Or.inr (Or.inr rfl)))

/-- C10: on every run — whatever the response status, whether the content
wrapper is found, and whatever the document holds — the diagnostic proof
marker file is written first, before the single network request, so it
exists even when the fetch or any later stage fails; no network activity
precedes it. -/
theorem claim_C10 (status : Nat) (wrapperFound : Bool) (nodes : List Node) :
    ∃ t, mainEvents status wrapperFound nodes = Ev.proofFile :: Ev.netRequest :: t ∧
      Ev.netRequest ∉ t ∧ Ev.proofFile ∉ t := by
  refine ⟨mainTail status wrapperFound nodes, rfl, ?_, ?_⟩ <;>
    rcases mainTail_cases status wrapperFound nodes with h | h | h | h | h <;>
      rw [h] <;> decide

/-- C9 counterexample: status 304 is not a 2xx success status, yet
`raise_for_status` does not raise on it (it raises only for 4xx/5xx), so
the claim "any non-2xx status raises" fails at status 304. -/
theorem claim_C9_counterexample :
    raiseForStatus 304 = false ∧ ¬(200 ≤ 304 ∧ 304 < 300) := by
  constructor
  · rfl
  · decide

/-- C9 (amended): the fetch sends a single GET request with a 30-second
timeout and the custom identifying User-Agent header; `raise_for_status`
raises exactly for 4xx/5xx error statuses (not for every non-2xx status),
and when it raises the run aborts immediately after the one request — there
is no retry and nothing further happens. -/
theorem claim_C9 (status : Nat) (wrapperFound : Bool) (nodes : List Node) :
    theRequest.timeoutSeconds = 30 ∧
    theRequest.userAgent = "RewindOS-Christmas/1.0 (personal project)" ∧
    (raiseForStatus status = true ↔ 400 ≤ status ∧ status < 600) ∧
    (mainEvents status wrapperFound nodes).count Ev.netRequest = 1 ∧
    (raiseForStatus status = true →
      mainEvents status wrapperFound nodes = [Ev.proofFile, Ev.netRequest, Ev.httpError]) := by
  refine ⟨rfl, rfl, ?_, ?_, ?_⟩
  · simp [raiseForStatus]
  · unfold mainEvents
    rcases mainTail_cases status wrapperFound nodes with h | h | h | h | h <;>
      rw [h] <;> decide
  · intro h
    unfold mainEvents mainTail
    rw [h]
    rfl

theorem claim_C9_witness :
    mainEvents 404 true [] = [Ev.proofFile, Ev.netRequest, Ev.httpError] :=
  (claim_C9 404 true []).2.2.2.2 (by decide)

end Rewindos

namespace Rewindos

/-- C4: the year-count result contains exactly the distinct years of the
filtered entries (each exactly once), maps each to the number of entries
with that year, and its rows are ordered by count descending; the relative
order of rows with equal counts is not constrained beyond that. -/
theorem claim_C4 (l : List Entry) (_hne : l ≠ []) :
    (∀ y, y ∈ (yearCounts l).map Prod.fst ↔ y ∈ l.map Entry.year) ∧
    ((yearCounts l).map Prod.fst).Nodup ∧
    (∀ p, p ∈ yearCounts l → p.2 = countYear l p.1) ∧
    List.Sorted countDescOrder (yearCounts l) := by
  have hperm : List.Perm (yearCounts l) (groupPairs l) :=
    List.perm_insertionSort countDescOrder (groupPairs l)
  have hkeys : (groupPairs l).map Prod.fst =
      List.insertionSort (fun a b : Nat => a ≤ b) (l.map Entry.year).dedup := by
    simp only [groupPairs, List.map_map]
    exact List.map_id _
  refine ⟨?_, ?_, ?_, List.sorted_insertionSort countDescOrder (groupPairs l)⟩
  · intro y
    rw [(hperm.map Prod.fst).mem_iff, hkeys, List.mem_insertionSort, List.mem_dedup]
  · apply ((hperm.map Prod.fst).nodup_iff).mpr
    rw [hkeys]
    exact ((List.perm_insertionSort _ _).nodup_iff).mpr (l.map Entry.year).nodup_dedup
  · intro p hp
    have hmem : p ∈ groupPairs l := hperm.mem_iff.mp hp
    unfold groupPairs at hmem
    rw [List.mem_map] at hmem
    obtain ⟨y, _, rfl⟩ := hmem
    rfl

theorem claim_C4_witness : ((1999, 3) : Nat × Nat).2 = countYear sampleEntries 1999 :=
  (claim_C4 sampleEntries (by decide)).2.2.1 (1999, 3) (by decide)

end Rewindos
